import Mathlib

/-!
Shallow embedding of the travailleur definition-loading core:

* the error taxonomy (src/error.rs),
* the resource loader (src/loader.rs),
* the definition cache (src/cache.rs),
* the garde validation rules (src/detail/garde.rs and
  src/workflow/definition/detail/garde.rs), and
* the `NonNegativeNumber` conversions (src/workflow/definition/common.rs).

Machine integers of the source are modelled as unbounded `Int` (overflow of
numeric parsing is out of scope of every claim); `Rc` identity is modelled by
an allocation id; conditional compilation (`yaml` / `validate` cargo features)
is modelled by boolean flags in the loader environment, and every
`#[cfg(...)]` block of the source becomes an `if` on the corresponding flag
placed exactly where the block sits in the source.
-/

namespace Travailleur

/-- URI model: the scheme and the path segments, as exposed by `url::Url`
through `Url::scheme()` and `Url::path_segments()` (the latter is `None` for
non-hierarchical URLs, hence the `Option`). -/
structure Uri where
  scheme : String
  pathSegments : Option (List String)
  deriving DecidableEq

/-- The error type of src/error.rs. Payloads that no claim inspects (the
wrapped `ParseIntError`, `io::Error`, serde errors, garde report) are carried
as plain data or dropped; the fields the claims do inspect
(`expected_type` / `actual_type`, `scheme`, `file_ext`, `required_feature`)
are kept verbatim. -/
inductive Error where
  | MissingIdentifier
  | InvalidInt
  | InvalidFloat
  | ValidationFailed (report : List String)
  | InvalidUrl
  | InvalidPathInFileUri (file_uri : Uri)
  | UnsupportedUriScheme (scheme : String)
  | UnsupportedFileFormat (file_ext : String)
  | JsonConversionFailed (msg : String)
  | YamlConversionFailed (msg : String)
  | FileIo (msg : String)
  | InvalidCachedObjectType (expected_type : String) (actual_type : String)
  | FeatureDisabled (required_feature : String)
  deriving DecidableEq

/-! ### File-extension extraction (src/loader.rs lines 69-77) -/

/-- Splits a list of characters at its last dot: `some (before, after)` when a
dot occurs, preferring the rightmost one. -/
def splitAtLastDot : List Char → Option (List Char × List Char)
  | [] => none
  | c :: rest =>
    match splitAtLastDot rest with
    | some (before, after) => some (c :: before, after)
    | none => if c = '.' then some ([], rest) else none

/-- `std::path::Path::file_name` restricted to a single URL path segment (a
segment contains no separator): `None` for the empty, `.` and `..` segments. -/
def segmentFileName (s : String) : Option String :=
  if s = "" ∨ s = "." ∨ s = ".." then none else some s

/-- `Path::new(segment).extension()`: the part of the file name after its last
dot, unless there is no dot or the only dot starts the name. -/
def extensionOfSegment (s : String) : Option String :=
  (segmentFileName s).bind fun f =>
    match splitAtLastDot f.toList with
    | some (_ :: _, after) => some (String.mk after)
    | _ => none

/-- ASCII lower-casing of one character (`u8::to_ascii_lowercase`). -/
def asciiLowerChar (c : Char) : Char :=
  if 'A' ≤ c ∧ c ≤ 'Z' then Char.ofNat (c.toNat + 32) else c

/-- `OsStr::to_ascii_lowercase` on a valid UTF-8 string. -/
def asciiLower (s : String) : String :=
  String.mk (s.toList.map asciiLowerChar)

/-- The `file_ext` computation of `DefinitionLoader::load` (src/loader.rs
lines 69-77): last path segment, its extension, lower-cased; `""` when any
step yields nothing (`unwrap_or("")`; `to_str` always succeeds on our
strings). -/
def fileExt (uri : Uri) : String :=
  (((uri.pathSegments.bind List.getLast?).bind extensionOfSegment).map asciiLower).getD ""

/-! ### Resource loader (src/loader.rs) -/

/-- Build-time features and external effects the loader depends on: the cargo
feature flags, the filesystem, the serde decoders and the garde validation of
the document type `T`. `validate t = none` models a garde success and
`some report` a failing `garde::Report`. -/
structure LoaderEnv (T : Type) where
  yamlEnabled : Bool
  validateEnabled : Bool
  toFilePath : Uri → Option String
  readFile : String → Except String (List Nat)
  jsonDecode : List Nat → Except String T
  yamlDecode : List Nat → Except String T
  validate : T → Option (List String)

/-- Outcome of a loader call: success, a returned error, or the
`unimplemented!` panic of the HTTP stub. -/
inductive LoadResult (α : Type) where
  | ok (val : α)
  | err (e : Error)
  | panicked (msg : String)
  deriving DecidableEq

/-- `DefinitionLoader::load_from_file` (src/loader.rs lines 92-98): path
conversion failure is `InvalidPathInFileUri`, a read failure is `FileIo`. -/
def load_from_file {T : Type} (env : LoaderEnv T) (uri : Uri) : LoadResult (List Nat) :=
  match env.toFilePath uri with
  | none => LoadResult.err (Error.InvalidPathInFileUri uri)
  | some path =>
    match env.readFile path with
    | Except.error msg => LoadResult.err (Error.FileIo msg)
    | Except.ok bytes => LoadResult.ok bytes

/-- `DefinitionLoader::load_from_http` (src/loader.rs lines 100-102): the
`unimplemented!` stub. -/
def load_from_http : LoadResult (List Nat) :=
  LoadResult.panicked "loading resources from HTTP URIs is not currently supported"

/-- `DefinitionLoader::load_from_json` (src/loader.rs lines 104-109). -/
def load_from_json {T : Type} (env : LoaderEnv T) (bytes : List Nat) : Except Error T :=
  match env.jsonDecode bytes with
  | Except.ok v => Except.ok v
  | Except.error msg => Except.error (Error.JsonConversionFailed msg)

/-- `DefinitionLoader::load_from_yaml` (src/loader.rs lines 111-124): decodes
when the `yaml` feature is compiled in, otherwise
`FeatureDisabled { required_feature: "yaml" }`. -/
def load_from_yaml {T : Type} (env : LoaderEnv T) (bytes : List Nat) : Except Error T :=
  if env.yamlEnabled then
    match env.yamlDecode bytes with
    | Except.ok v => Except.ok v
    | Except.error msg => Except.error (Error.YamlConversionFailed msg)
  else Except.error (Error.FeatureDisabled "yaml")

/-- The scheme dispatch of `DefinitionLoader::load` (src/loader.rs lines
63-67). -/
def fetchBytes {T : Type} (env : LoaderEnv T) (uri : Uri) : LoadResult (List Nat) :=
  match uri.scheme with
  | "file" => load_from_file env uri
  | "http" => load_from_http
  | "https" => load_from_http
  | scheme => LoadResult.err (Error.UnsupportedUriScheme scheme)

/-- The decoder dispatch of `DefinitionLoader::load` (src/loader.rs lines
78-82). -/
def decodeByExt {T : Type} (env : LoaderEnv T) (ext : String) (bytes : List Nat) :
    Except Error T :=
  match ext with
  | "json" => load_from_json env bytes
  | "yaml" => load_from_yaml env bytes
  | "yml" => load_from_yaml env bytes
  | other => Except.error (Error.UnsupportedFileFormat other)

/-- `ValidateDefinition::validate_definition` (src/validation.rs lines 35-45):
delegates to garde when the `validate` feature is compiled in, otherwise
always `FeatureDisabled { required_feature: "validate" }`. -/
def validate_definition {T : Type} (env : LoaderEnv T) (t : T) : Except Error Unit :=
  if env.validateEnabled then
    match env.validate t with
    | none => Except.ok ()
    | some report => Except.error (Error.ValidationFailed report)
  else Except.error (Error.FeatureDisabled "validate")

/-- `DefinitionLoader::load` (src/loader.rs lines 59-90): scheme dispatch,
extension-driven decode, then the `#[cfg(feature = "validate")]` block — the
call to `validate_definition` exists only when the `validate` feature is
compiled in, which the model renders as the `if env.validateEnabled` guard. -/
def load {T : Type} (env : LoaderEnv T) (uri : Uri) : LoadResult T :=
  match fetchBytes env uri with
  | LoadResult.panicked msg => LoadResult.panicked msg
  | LoadResult.err e => LoadResult.err e
  | LoadResult.ok bytes =>
    match decodeByExt env (fileExt uri) bytes with
    | Except.error e => LoadResult.err e
    | Except.ok d =>
      if env.validateEnabled then
        match validate_definition env d with
        | Except.ok _ => LoadResult.ok d
        | Except.error e => LoadResult.err e
      else LoadResult.ok d

/-! ### Definition cache (src/cache.rs) -/

/-- One slot of the cache map: the `(Rc<dyn Any>, &'static str)` pair.
`allocId` stands for the identity of the `Rc` allocation (two handles are the
same underlying value iff their ids are equal); `tyId` stands for the
`TypeId` of the stored value, from which the stored `type_name` string is
recovered via the `tyName` function passed around below. -/
structure CacheEntry (Ty : Type) where
  allocId : Nat
  tyId : Ty

/-- The `HashMap<Url, (Rc<dyn Any>, &'static str)>` of `DefinitionCache`,
modelled as an association list with unique keys (lookup takes the first
match; the code only ever inserts a key that is absent). -/
structure CacheState (Ty : Type) where
  cache : List (Uri × CacheEntry Ty)

/-- `HashMap::get` on the association list. -/
def cacheFind {Ty : Type} : List (Uri × CacheEntry Ty) → Uri → Option (CacheEntry Ty)
  | [], _ => none
  | (k, e) :: rest, u => if k = u then some e else cacheFind rest u

/-- One call to `DefinitionCache::get_or_insert`: the requested type `ty`
(a stand-in for the static `T`), the URI, and what `DefinitionLoader::load`
would return if it were invoked on this call (an `Rc` allocation id on
success — the filesystem may change between calls, so each call carries its
own loader outcome). -/
structure Call (Ty : Type) where
  ty : Ty
  uri : Uri
  outcome : Except Error Nat

/-- Observable outcome of one `get_or_insert` call: the returned
`Result<Rc<T>>` (as an allocation id), the cache state afterwards, and
whether `DefinitionLoader::load` was invoked. -/
structure StepResult (Ty : Type) where
  result : Except Error Nat
  state : CacheState Ty
  invokedLoader : Bool

/-- `DefinitionCache::get_or_insert` (src/cache.rs lines 50-73).

* Cache hit: `Rc::clone(def).downcast::<T>()` succeeds iff the stored
  `TypeId` equals the requested one (`c.ty = entry.tyId`); on mismatch the
  error carries `type_name::<T>()` (`tyName c.ty`) as `expected_type` and the
  stored name (`tyName entry.tyId` — the string stored alongside the value at
  insertion time) as `actual_type`.
* Cache miss: delegate to the loader; on success insert `(uri, (value, name))`
  and return the value; on failure the `?` operator returns the error with no
  insertion. -/
def get_or_insert {Ty : Type} [DecidableEq Ty] (tyName : Ty → String)
    (s : CacheState Ty) (c : Call Ty) : StepResult Ty :=
  match cacheFind s.cache c.uri with
  | some entry =>
    if c.ty = entry.tyId then
      { result := Except.ok entry.allocId, state := s, invokedLoader := false }
    else
      { result := Except.error
          (Error.InvalidCachedObjectType (tyName c.ty) (tyName entry.tyId)),
        state := s, invokedLoader := false }
  | none =>
    match c.outcome with
    | Except.ok id =>
      { result := Except.ok id,
        state := ⟨(c.uri, ⟨id, c.ty⟩) :: s.cache⟩,
        invokedLoader := true }
    | Except.error e =>
      { result := Except.error e, state := s, invokedLoader := true }

/-- Runs a sequence of `get_or_insert` calls, threading the cache state. -/
def runCalls {Ty : Type} [DecidableEq Ty] (tyName : Ty → String)
    (s : CacheState Ty) : List (Call Ty) → CacheState Ty
  | [] => s
  | c :: cs => runCalls tyName (get_or_insert tyName s c).state cs

/-- The step taken by call `c` after the calls `pre` have run on a fresh
cache. -/
def stepAfter {Ty : Type} [DecidableEq Ty] (tyName : Ty → String)
    (pre : List (Call Ty)) (c : Call Ty) : StepResult Ty :=
  get_or_insert tyName (runCalls tyName ⟨[]⟩ pre) c

/-- The step taken by call `c'` after the calls `pre`, then `c`, then `mid`
have run on a fresh cache. -/
def stepAfter2 {Ty : Type} [DecidableEq Ty] (tyName : Ty → String)
    (pre : List (Call Ty)) (c : Call Ty) (mid : List (Call Ty)) (c' : Call Ty) :
    StepResult Ty :=
  get_or_insert tyName (runCalls tyName (stepAfter tyName pre c).state mid) c'

/-! ### Validation rules (src/detail/garde.rs,
src/workflow/definition/detail/garde.rs) -/

/-- `itertools`' `duplicates().next()`: scanning left to right with the set of
elements already seen, the first element that was seen before — i.e. the
element whose second occurrence comes first. Detection is by equality
(`Eq + Hash`), never by identity. -/
def firstDuplicate {α : Type} [DecidableEq α] : List α → List α → Option α
  | _, [] => none
  | seen, x :: rest => if x ∈ seen then some x else firstDuplicate (x :: seen) rest

/-- `unique_values` (src/detail/garde.rs lines 97-110): at most one
`garde::Error` is produced, rendering the first duplicate found. `render`
stands for the `Display` instance of the item type. -/
def unique_values {α : Type} [DecidableEq α] (render : α → String) (values : List α) :
    Except String Unit :=
  match firstDuplicate [] values with
  | some dup =>
    Except.error ("values must be unique, but found duplicate item `" ++ render dup ++ "`")
  | none => Except.ok ()

/-- One decimal digit (`char::to_digit(10)`). -/
def digitVal (c : Char) : Option Nat :=
  if '0' ≤ c ∧ c ≤ '9' then some (c.toNat - 48) else none

/-- Accumulating decimal parse of a digit run; fails on any non-digit. -/
def parseNatAux : Nat → List Char → Option Nat
  | acc, [] => some acc
  | acc, c :: cs =>
    match digitVal c with
    | some d => parseNatAux (acc * 10 + d) cs
    | none => none

/-- A non-empty all-digit run as a number. -/
def parseNatDigits : List Char → Option Nat
  | [] => none
  | cs => parseNatAux 0 cs

/-- `<i64 as FromStr>::from_str`: an optional `+`/`-` sign followed by one or
more ASCII decimal digits, nothing else. Modelled on unbounded `Int`
(overflow is outside the scope of every claim). -/
def parseInt (s : String) : Option Int :=
  match s.toList with
  | '+' :: cs => (parseNatDigits cs).map (fun n => (n : Int))
  | '-' :: cs => (parseNatDigits cs).map (fun n => -(n : Int))
  | cs => (parseNatDigits cs).map (fun n => (n : Int))

/-- `must_be_a_number` (src/detail/garde.rs lines 112-129), instantiated at
the integer target type: the empty string is a valid zero sentinel; any other
string must parse, else the error echoes the literal invalid string. -/
def must_be_a_number (value : String) : Except String Unit :=
  if value = "" then Except.ok ()
  else
    match parseInt value with
    | some _ => Except.ok ()
    | none => Except.error ("expected a number, found \x27" ++ value ++ "\x27")

/-- Alias for the string type, needed where the `NonNegativeNumber.String`
constructor name would shadow it. -/
abbrev Str := String

/-- `NonNegativeNumber<T>` (src/workflow/definition/common.rs lines 26-42)
instantiated at an integer `T`: a number, or a string that should contain a
number. -/
inductive NonNegativeNumber where
  | Number (n : Int)
  | String (s : Str)
  deriving DecidableEq

/-- The `Display` instance of `NonNegativeNumber` (common.rs lines 62-72). -/
def NonNegativeNumber.render : NonNegativeNumber → Str
  | NonNegativeNumber.Number n => toString n
  | NonNegativeNumber.String s => s

/-- `NonNegativeNumber::value` (common.rs lines 54-59): the number itself, or
the parse of the string (a `ParseIntError` converts into `Error::InvalidInt`).
No sign check is performed. -/
def NonNegativeNumber.value : NonNegativeNumber → Except Error Int
  | NonNegativeNumber.Number n => Except.ok n
  | NonNegativeNumber.String s =>
    match parseInt s with
    | some n => Except.ok n
    | none => Except.error Error.InvalidInt

/-- `ValidatedNonNegativeNumber<T>` (common.rs line 78): a plain wrapper;
`val` models the tuple field `.0`. -/
structure ValidatedNonNegativeNumber where
  val : Int
  deriving DecidableEq

/-- `TryFrom<&NonNegativeNumber<T>> for ValidatedNonNegativeNumber<T>`
(common.rs lines 139-149): `Ok(Self(value.value()?))` — no sign check. -/
def ValidatedNonNegativeNumber.tryFrom (v : NonNegativeNumber) :
    Except Error ValidatedNonNegativeNumber :=
  match NonNegativeNumber.value v with
  | Except.ok n => Except.ok ⟨n⟩
  | Except.error e => Except.error e

/-- Abbreviated `Display` of the crate error (thiserror `#[error(...)]`
strings); only used to build rule messages no claim inspects, so the wrapped
std error text is abbreviated. -/
def Error.render : Error → String
  | Error.InvalidInt => "invalid number"
  | _ => "error"

/-- `must_be_multiple_of` (src/detail/garde.rs lines 154-178), instantiated
at the integer multiple type: convert through
`ValidatedNonNegativeNumber::try_from`, then require remainder zero. Rust `%`
on integers is the truncated remainder, `Int.tmod`. -/
def must_be_multiple_of (multiple : Int) (value : NonNegativeNumber) :
    Except String Unit :=
  match ValidatedNonNegativeNumber.tryFrom value with
  | Except.ok v =>
    if Int.tmod v.val multiple ≠ 0 then
      Except.error ("expected " ++ NonNegativeNumber.render value ++
        " to be a multiple of " ++ toString multiple)
    else Except.ok ()
  | Except.error err =>
    Except.error ("expected valid number, got \x27" ++ NonNegativeNumber.render value ++
      "\x27: " ++ Error.render err)

/-- `must_be_optional_multiple_of` (src/detail/garde.rs lines 180-195): absent
value is automatically valid. -/
def must_be_optional_multiple_of (multiple : Int) (value : Option NonNegativeNumber) :
    Except String Unit :=
  match value with
  | some v => must_be_multiple_of multiple v
  | none => Except.ok ()

/-- `if_not_used_for_compensation_then_must_have_transition_or_end`
(src/workflow/definition/detail/garde.rs lines 3-19): the closure captures the
two sibling option fields (`transition` and the terminal `end` marker — named
`endMarker` here because `end` is a Lean keyword) and receives the flag. -/
def if_not_used_for_compensation_then_must_have_transition_or_end {T U : Type}
    (transition : Option T) (endMarker : Option U) (used_for_compensation : Bool) :
    Except String Unit :=
  if !used_for_compensation && transition.isNone && endMarker.isNone then
    Except.error ""
  else Except.ok ()

/-! ### Sample environments and inputs for concrete instances -/

/-- A `file://` URI whose last path segment has the `json` extension. -/
def uriJson : Uri := { scheme := "file", pathSegments := some ["defs", "wf.json"] }

/-- A `file://` URI whose last path segment has the upper-case `JSON`
extension. -/
def uriUpper : Uri := { scheme := "file", pathSegments := some ["defs", "wf.JSON"] }

/-- A loader environment with the `validate` feature compiled out: the
filesystem read and the JSON decode succeed, and garde validation — were it
ever consulted — would reject the document. -/
def envNoValidate : LoaderEnv Nat :=
  { yamlEnabled := true, validateEnabled := false,
    toFilePath := fun _ => some "/defs/wf.json",
    readFile := fun _ => Except.ok [123],
    jsonDecode := fun _ => Except.ok 42,
    yamlDecode := fun _ => Except.error "unused",
    validate := fun _ => some ["never runs"] }

/-- A loader environment whose JSON decoder fails with message `boom`. -/
def envJsonErr : LoaderEnv Nat :=
  { yamlEnabled := false, validateEnabled := true,
    toFilePath := fun _ => some "/defs/wf.JSON",
    readFile := fun _ => Except.ok [1, 2],
    jsonDecode := fun _ => Except.error "boom",
    yamlDecode := fun _ => Except.error "unused",
    validate := fun _ => none }

/-- A URI used as a cache key in the concrete cache scenarios. -/
def uriCacheA : Uri := { scheme := "file", pathSegments := some ["defs", "sub.json"] }

/-- A call requesting type `WorkflowDefinition` whose loader, if invoked,
returns allocation 1. -/
def callLoadOk1 : Call String :=
  { ty := "WorkflowDefinition", uri := uriCacheA, outcome := Except.ok 1 }

/-- A second call for the same URI and type whose loader, if invoked, would
return a different allocation. -/
def callLoadOk2 : Call String :=
  { ty := "WorkflowDefinition", uri := uriCacheA, outcome := Except.ok 2 }

/-- A call requesting a different type for the same URI. -/
def callOtherType : Call String :=
  { ty := "OtherDefinition", uri := uriCacheA, outcome := Except.ok 3 }

/-- A call for the same URI whose loader fails. -/
def callLoadFail : Call String :=
  { ty := "WorkflowDefinition", uri := uriCacheA,
    outcome := Except.error (Error.FileIo "not found") }

/-! ### Helper lemmas about the cache -/

/-- Once a URI has an entry, no later call changes or removes it: every
branch of `get_or_insert` either leaves the map alone or inserts a key that
was absent. -/
theorem cacheFind_persist {Ty : Type} [DecidableEq Ty] (tyName : Ty → String)
    (s : CacheState Ty) (c : Call Ty) (u : Uri) (e : CacheEntry Ty)
    (h : cacheFind s.cache u = some e) :
    cacheFind (get_or_insert tyName s c).state.cache u = some e := by
  unfold get_or_insert
  cases hf : cacheFind s.cache c.uri with
  | some entry =>
    by_cases hty : c.ty = entry.tyId <;> simp [hty, h]
  | none =>
    cases ho : c.outcome with
    | ok id =>
      have hne : ¬ c.uri = u := by
        intro heq
        rw [heq, h] at hf
        cases hf
      simp [cacheFind, hne, h]
    | error e₂ => simpa using h

/-- `cacheFind_persist` lifted over a whole sequence of calls. -/
theorem cacheFind_runCalls_persist {Ty : Type} [DecidableEq Ty] (tyName : Ty → String)
    (cs : List (Call Ty)) :
    ∀ (s : CacheState Ty) (u : Uri) (e : CacheEntry Ty),
      cacheFind s.cache u = some e →
      cacheFind (runCalls tyName s cs).cache u = some e := by
  induction cs with
  | nil =>
    intro s u e h
    simpa [runCalls] using h
  | cons c cs ih =>
    intro s u e h
    simp only [runCalls]
    exact ih _ u e (cacheFind_persist tyName s c u e h)

/-- A call that returns `Ok(handle)` leaves, in the resulting state, an entry
for its URI holding exactly that handle and the requested type: a cache hit
returns the stored entry after a successful downcast, and a miss stores what
it returns. -/
theorem get_or_insert_ok_entry {Ty : Type} [DecidableEq Ty] (tyName : Ty → String)
    (s : CacheState Ty) (c : Call Ty) (a : Nat)
    (h : (get_or_insert tyName s c).result = Except.ok a) :
    cacheFind (get_or_insert tyName s c).state.cache c.uri = some ⟨a, c.ty⟩ := by
  cases hf : cacheFind s.cache c.uri with
  | some entry =>
    obtain ⟨eid, ety⟩ := entry
    by_cases hty : c.ty = ety
    · have h' : eid = a := by
        simpa [get_or_insert, hf, hty] using h
      subst h'
      simp [get_or_insert, hf, hty]
    · exfalso
      simp [get_or_insert, hf, hty] at h
  | none =>
    cases ho : c.outcome with
    | ok id =>
      have h' : id = a := by
        simpa [get_or_insert, hf, ho] using h
      subst h'
      simp [get_or_insert, hf, ho, cacheFind]
    | error e₂ =>
      exfalso
      simp [get_or_insert, hf, ho] at h

/-! ### Helper lemmas about duplicate detection -/

/-- The scan finds no duplicate exactly when the list has none and avoids
everything already seen. -/
theorem firstDuplicate_eq_none_iff {α : Type} [DecidableEq α] :
    ∀ (l seen : List α),
      firstDuplicate seen l = none ↔ (l.Nodup ∧ ∀ x ∈ l, x ∉ seen) := by
  intro l
  induction l with
  | nil =>
    intro seen
    simp [firstDuplicate]
  | cons x rest ih =>
    intro seen
    by_cases hx : x ∈ seen
    · simp [firstDuplicate, hx]
    · rw [show firstDuplicate seen (x :: rest) = firstDuplicate (x :: seen) rest by
        simp [firstDuplicate, hx]]
      rw [ih (x :: seen)]
      constructor
      · rintro ⟨hnd, h⟩
        refine ⟨List.nodup_cons.2 ⟨fun hxr => h x hxr (List.mem_cons_self x seen), hnd⟩, ?_⟩
        intro y hy
        rcases List.mem_cons.1 hy with rfl | hy₂
        · exact hx
        · exact fun hs => h y hy₂ (List.mem_cons_of_mem x hs)
      · rintro ⟨hnd, h⟩
        obtain ⟨hxr, hrest⟩ := List.nodup_cons.1 hnd
        refine ⟨hrest, ?_⟩
        intro y hy hmem
        rcases List.mem_cons.1 hmem with rfl | hys
        · exact hxr hy
        · exact h y (List.mem_cons_of_mem x hy) hys

/-- When the scanned list decomposes as a clean prefix followed by an element
of that prefix (or of the already-seen set), the scan reports exactly that
element: its second occurrence is the first to complete. -/
theorem firstDuplicate_append {α : Type} [DecidableEq α] :
    ∀ (pre seen : List α) (d : α) (rest : List α),
      (pre ++ seen).Nodup → (d ∈ pre ∨ d ∈ seen) →
      firstDuplicate seen (pre ++ d :: rest) = some d := by
  intro pre
  induction pre with
  | nil =>
    intro seen d rest _ hd
    have hmem : d ∈ seen := by
      rcases hd with h | h
      · cases h
      · exact h
    simp [firstDuplicate, hmem]
  | cons p pre₂ ih =>
    intro seen d rest hnd hd
    have hnd₂ : (p :: (pre₂ ++ seen)).Nodup := by simpa using hnd
    have hp : p ∉ seen := fun hmem =>
      (List.nodup_cons.1 hnd₂).1 (List.mem_append_right pre₂ hmem)
    rw [show firstDuplicate seen ((p :: pre₂) ++ d :: rest)
        = firstDuplicate (p :: seen) (pre₂ ++ d :: rest) by
      simp [firstDuplicate, hp]]
    apply ih (p :: seen) d rest
    · exact (List.perm_middle.nodup_iff).2 hnd₂
    · rcases hd with hd | hd
      · rcases List.mem_cons.1 hd with rfl | hd₂
        · exact Or.inr (List.mem_cons_self d seen)
        · exact Or.inl hd₂
      · exact Or.inr (List.mem_cons_of_mem p hd)

/-! ### Claim theorems -/

/-- C1: in any sequence of `get_or_insert` calls starting from a fresh cache,
once some call for a URI has returned `Ok`, no later call for that URI
invokes `DefinitionLoader::load` again (so no second decode or validation
pass happens, since both only happen inside the loader), and every later
successful call for that URI returns a handle to the same underlying stored
value. The decomposition `pre`, `c`, `mid`, `c'` ranges over all pairs of
calls for the URI in the sequence. -/
theorem getOrInsert_loader_at_most_once {Ty : Type} [DecidableEq Ty] (tyName : Ty → String)
    (pre mid : List (Call Ty)) (c c' : Call Ty) (huri : c'.uri = c.uri) :
    ((stepAfter tyName pre c).result.isOk = true →
       (stepAfter2 tyName pre c mid c').invokedLoader = false)
    ∧ (∀ a, (stepAfter tyName pre c).result = Except.ok a →
        ∀ b, (stepAfter2 tyName pre c mid c').result = Except.ok b → b = a) := by
  have key : ∀ a, (stepAfter tyName pre c).result = Except.ok a →
      cacheFind (runCalls tyName (stepAfter tyName pre c).state mid).cache c'.uri
        = some ⟨a, c.ty⟩ := by
    intro a ha
    rw [huri]
    exact cacheFind_runCalls_persist tyName mid _ c.uri _
      (get_or_insert_ok_entry tyName _ c a ha)
  constructor
  · intro hok
    cases hres : (stepAfter tyName pre c).result with
    | error e =>
      rw [hres] at hok
      simp [Except.isOk, Except.toBool] at hok
    | ok a =>
      have hfind := key a hres
      by_cases hty : c'.ty = c.ty <;>
        simp [stepAfter2, get_or_insert, hfind, hty]
  · intro a ha b hb
    have hfind := key a ha
    by_cases hty : c'.ty = c.ty
    · simp only [stepAfter2, get_or_insert, hfind, hty] at hb
      simpa using hb.symm
    · simp [stepAfter2, get_or_insert, hfind, hty] at hb

/-- Witness for C1: load the same URI twice with the same type; the second
call does not invoke the loader. -/
theorem getOrInsert_loader_at_most_once_witness :
    (stepAfter2 (fun t : String => t) [] callLoadOk1 [] callLoadOk2).invokedLoader = false := by
  have h := getOrInsert_loader_at_most_once (fun t : String => t) [] [] callLoadOk1
    callLoadOk2 rfl
  exact h.1 rfl

/-- C2: after a call for URI `u` with type `A = c.ty` has returned `Ok`, any
later call for `u` requesting a different type `B` returns exactly
`InvalidCachedObjectType` with `expected_type` the name of `B` and
`actual_type` the stored name of `A` (so no value is ever reinterpreted as
`B`), while any later call requesting the matching type `A` succeeds and
never produces this error. -/
theorem getOrInsert_type_mismatch_safety {Ty : Type} [DecidableEq Ty] (tyName : Ty → String)
    (pre mid : List (Call Ty)) (c : Call Ty) (B : Ty) (hne : B ≠ c.ty)
    (hok : (stepAfter tyName pre c).result.isOk = true) :
    (∀ c' : Call Ty, c'.uri = c.uri → c'.ty = B →
        (stepAfter2 tyName pre c mid c').result
          = Except.error (Error.InvalidCachedObjectType (tyName B) (tyName c.ty)))
    ∧ (∀ c' : Call Ty, c'.uri = c.uri → c'.ty = c.ty →
        (stepAfter2 tyName pre c mid c').result.isOk = true) := by
  obtain ⟨a, hres⟩ : ∃ a, (stepAfter tyName pre c).result = Except.ok a := by
    cases hres : (stepAfter tyName pre c).result with
    | error e =>
      rw [hres] at hok
      simp [Except.isOk, Except.toBool] at hok
    | ok a => exact ⟨a, rfl⟩
  have key : ∀ c' : Call Ty, c'.uri = c.uri →
      cacheFind (runCalls tyName (stepAfter tyName pre c).state mid).cache c'.uri
        = some ⟨a, c.ty⟩ := by
    intro c' huri
    rw [huri]
    exact cacheFind_runCalls_persist tyName mid _ c.uri _
      (get_or_insert_ok_entry tyName _ c a hres)
  constructor
  · intro c' huri hB
    have hfind := key c' huri
    simp [stepAfter2, get_or_insert, hfind, hB, hne]
  · intro c' huri hA
    have hfind := key c' huri
    simp [stepAfter2, get_or_insert, hfind, hA, Except.isOk, Except.toBool]

/-- Witness for C2: cache a `WorkflowDefinition` under a URI, then request an
`OtherDefinition` for the same URI; the call fails with the mismatch error
carrying both type names. -/
theorem getOrInsert_type_mismatch_safety_witness :
    (stepAfter2 (fun t : String => t) [] callLoadOk1 [] callOtherType).result
      = Except.error (Error.InvalidCachedObjectType "OtherDefinition" "WorkflowDefinition") := by
  have h := getOrInsert_type_mismatch_safety (fun t : String => t) [] [] callLoadOk1
    "OtherDefinition" (by decide) rfl
  exact h.1 callOtherType rfl rfl

/-- C3: on a cache miss whose delegated load fails, `get_or_insert` returns
the loader's error, the cache map is left exactly as it was (nothing is
stored for the URI), the loader was indeed invoked, and any subsequent call
for the same URI invokes the loader again (full reload, no negative
caching). -/
theorem getOrInsert_failed_load_leaves_cache_unchanged {Ty : Type} [DecidableEq Ty]
    (tyName : Ty → String) (s : CacheState Ty) (c : Call Ty) (e : Error)
    (hmiss : cacheFind s.cache c.uri = none) (hfail : c.outcome = Except.error e) :
    (get_or_insert tyName s c).result = Except.error e
    ∧ (get_or_insert tyName s c).state = s
    ∧ (get_or_insert tyName s c).invokedLoader = true
    ∧ ∀ c' : Call Ty, c'.uri = c.uri →
        (get_or_insert tyName (get_or_insert tyName s c).state c').invokedLoader = true := by
  have hstep : get_or_insert tyName s c
      = { result := Except.error e, state := s, invokedLoader := true } := by
    unfold get_or_insert
    rw [hmiss, hfail]
  refine ⟨by rw [hstep], by rw [hstep], by rw [hstep], ?_⟩
  intro c' huri
  rw [hstep]
  cases ho : c'.outcome with
  | ok id => simp [get_or_insert, huri, hmiss, ho]
  | error e₂ => simp [get_or_insert, huri, hmiss, ho]

/-- Witness for C3: a failing load on an empty cache leaves the cache
empty. -/
theorem getOrInsert_failed_load_leaves_cache_unchanged_witness :
    (get_or_insert (fun t : String => t) ⟨[]⟩ callLoadFail).state
      = (⟨[]⟩ : CacheState String) := by
  have h := getOrInsert_failed_load_leaves_cache_unchanged (fun t : String => t)
    ⟨[]⟩ callLoadFail (Error.FileIo "not found") rfl rfl
  exact h.2.1

/-- C4 counterexample: with the `validate` feature compiled out,
`DefinitionLoader::load` on an otherwise well-formed resource does NOT return
`FeatureDisabled` — it succeeds, silently skipping validation (the
`#[cfg(feature = "validate")]` block of src/loader.rs lines 84-87 is compiled
away, so `validate_definition` is never consulted), even though the
environment's garde validation would have rejected the document. -/
theorem load_validate_disabled_counterexample :
    load envNoValidate uriJson = LoadResult.ok 42
    ∧ load envNoValidate uriJson ≠ LoadResult.err (Error.FeatureDisabled "validate") :=
  ⟨rfl, by decide⟩

/-- C4 (amended): when the `validate` feature is disabled,
`DefinitionLoader::load` skips the validation step entirely and succeeds on a
resource that fetches and decodes, and the stable
`FeatureDisabled("validate")` error is produced by
`ValidateDefinition::validate_definition` itself when called directly — not
by `load`. -/
theorem load_skips_validation_when_disabled {T : Type} (env : LoaderEnv T) (uri : Uri)
    (b : List Nat) (d : T)
    (hval : env.validateEnabled = false)
    (hfetch : fetchBytes env uri = LoadResult.ok b)
    (hdec : decodeByExt env (fileExt uri) b = Except.ok d) :
    load env uri = LoadResult.ok d
    ∧ ∀ t : T, validate_definition env t = Except.error (Error.FeatureDisabled "validate") := by
  constructor
  · simp [load, hfetch, hdec, hval]
  · intro t
    simp [validate_definition, hval]

/-- Witness for the amended C4: the concrete no-validate environment loads
the document that garde would have rejected. -/
theorem load_skips_validation_when_disabled_witness :
    load envNoValidate uriJson = LoadResult.ok 42 :=
  (load_skips_validation_when_disabled envNoValidate uriJson [123] 42 rfl rfl rfl).1

/-- C5: `DefinitionLoader::load` selects the decoder from the lower-cased
extension of the last path segment (`fileExt`). Once the byte fetch
succeeded: extension `json` consults the JSON decoder (its failure surfaces
as `JsonConversionFailed`, its value is what `load` returns); `yaml`/`yml`
with the `yaml` feature compiled out fails with `FeatureDisabled("yaml")`
(never a decode error); `yaml`/`yml` with the feature compiled in consults
the YAML decoder; any other extension — the empty string when there is
none — fails with `UnsupportedFileFormat` carrying the literal extension. -/
theorem load_format_selection {T : Type} (env : LoaderEnv T) (uri : Uri) (b : List Nat)
    (hfetch : fetchBytes env uri = LoadResult.ok b) :
    (fileExt uri = "json" → ∀ msg, env.jsonDecode b = Except.error msg →
       load env uri = LoadResult.err (Error.JsonConversionFailed msg))
    ∧ (fileExt uri = "json" → ∀ d, env.jsonDecode b = Except.ok d →
       env.validateEnabled = false → load env uri = LoadResult.ok d)
    ∧ ((fileExt uri = "yaml" ∨ fileExt uri = "yml") → env.yamlEnabled = false →
       load env uri = LoadResult.err (Error.FeatureDisabled "yaml"))
    ∧ ((fileExt uri = "yaml" ∨ fileExt uri = "yml") → env.yamlEnabled = true →
       ∀ msg, env.yamlDecode b = Except.error msg →
       load env uri = LoadResult.err (Error.YamlConversionFailed msg))
    ∧ (fileExt uri ≠ "json" → fileExt uri ≠ "yaml" → fileExt uri ≠ "yml" →
       load env uri = LoadResult.err (Error.UnsupportedFileFormat (fileExt uri))) := by
  refine ⟨?_, ?_, ?_, ?_, ?_⟩
  · intro hext msg hdec
    simp [load, hfetch, hext, decodeByExt, load_from_json, hdec]
  · intro hext d hdec hval
    simp [load, hfetch, hext, decodeByExt, load_from_json, hdec, hval]
  · rintro (hext | hext) hyaml <;>
      simp [load, hfetch, hext, decodeByExt, load_from_yaml, hyaml]
  · rintro (hext | hext) hyaml msg hdec <;>
      simp [load, hfetch, hext, decodeByExt, load_from_yaml, hyaml, hdec]
  · intro h₁ h₂ h₃
    have hd : decodeByExt env (fileExt uri) b
        = Except.error (Error.UnsupportedFileFormat (fileExt uri)) := by
      unfold decodeByExt
      split
      · rename_i heq
        exact absurd heq h₁
      · rename_i heq
        exact absurd heq h₂
      · rename_i heq
        exact absurd heq h₃
      · rfl
    simp [load, hfetch, hd]

/-- Witness for C5: a `file://` URI ending in upper-case `.JSON` selects the
JSON decoder (the extension is lower-cased first), whose failure surfaces as
`JsonConversionFailed`. -/
theorem load_format_selection_witness :
    load envJsonErr uriUpper = LoadResult.err (Error.JsonConversionFailed "boom") := by
  have h := load_format_selection envJsonErr uriUpper [1, 2] rfl
  exact h.1 rfl "boom" rfl

/-- C6: `unique_values` succeeds exactly when the sequence has no two equal
elements (detected by equality); when it fails, the single error message
renders the earliest duplicate in scan order — the element whose second
occurrence comes first, i.e. the element at the end of the first decomposition
`pre ++ d :: rest` with `pre` duplicate-free and `d ∈ pre`; in particular on
`["x", "y", "x"]` it reports duplicate `x` exactly once. -/
theorem unique_values_spec {α : Type} [DecidableEq α] (render : α → String) (l : List α) :
    (unique_values render l = Except.ok () ↔ l.Nodup)
    ∧ (∀ pre d rest, l = pre ++ d :: rest → pre.Nodup → d ∈ pre →
        unique_values render l = Except.error
          ("values must be unique, but found duplicate item `" ++ render d ++ "`"))
    ∧ unique_values (fun s => s) ["x", "y", "x"] = Except.error
        "values must be unique, but found duplicate item `x`" := by
  refine ⟨?_, ?_, rfl⟩
  · have h := firstDuplicate_eq_none_iff l ([] : List α)
    unfold unique_values
    cases hfd : firstDuplicate ([] : List α) l with
    | none =>
      rw [hfd] at h
      have hnd : l.Nodup := (h.1 rfl).1
      simp [hnd]
    | some dup =>
      rw [hfd] at h
      have hnd : ¬ l.Nodup := by
        intro hl
        have h₂ := h.2 ⟨hl, by simp⟩
        cases h₂
      simp [hnd]
  · rintro pre d rest rfl hnd hdp
    unfold unique_values
    rw [firstDuplicate_append pre ([] : List α) d rest (by simpa using hnd) (Or.inl hdp)]

/-- C7: `must_be_multiple_of m` succeeds exactly when the
`NonNegativeNumber` converts to its numeric form (a `Number` directly, a
`String` through the numeric parse) and the Rust `%` remainder
(`Int.tmod`) by `m` is zero; the optional variant additionally accepts an
absent value and otherwise agrees with the mandatory rule. Concretely,
multiple 5 accepts `10` and `"10"` and rejects `7`. -/
theorem must_be_multiple_of_spec (m : Int) (v : NonNegativeNumber) :
    ((must_be_multiple_of m v).isOk = true ↔
      ∃ n, NonNegativeNumber.value v = Except.ok n ∧ Int.tmod n m = 0)
    ∧ must_be_optional_multiple_of m none = Except.ok ()
    ∧ must_be_optional_multiple_of m (some v) = must_be_multiple_of m v
    ∧ (must_be_multiple_of 5 (NonNegativeNumber.Number 10)).isOk = true
    ∧ (must_be_multiple_of 5 (NonNegativeNumber.String "10")).isOk = true
    ∧ (must_be_multiple_of 5 (NonNegativeNumber.Number 7)).isOk = false := by
  refine ⟨?_, rfl, rfl, rfl, rfl, rfl⟩
  unfold must_be_multiple_of ValidatedNonNegativeNumber.tryFrom
  cases hv : NonNegativeNumber.value v with
  | ok n =>
    by_cases hm : Int.tmod n m = 0
    · simp [hm, Except.isOk, Except.toBool]
    · simp [hm, Except.isOk, Except.toBool]
  | error e =>
    simp [Except.isOk, Except.toBool]

/-- C8: the compensation rule succeeds exactly when the flag is true or one
of the two captured sibling fields (the transition reference or the terminal
end marker) is present, and fails exactly when the flag is false and both
siblings are absent. -/
theorem compensation_rule_spec {T U : Type} (transition : Option T) (endMarker : Option U)
    (flag : Bool) :
    (if_not_used_for_compensation_then_must_have_transition_or_end transition endMarker flag
        = Except.ok ()
      ↔ (flag = true ∨ transition.isSome = true ∨ endMarker.isSome = true))
    ∧ (if_not_used_for_compensation_then_must_have_transition_or_end transition endMarker flag
        = Except.error ""
      ↔ (flag = false ∧ transition = none ∧ endMarker = none)) := by
  unfold if_not_used_for_compensation_then_must_have_transition_or_end
  cases flag <;> cases transition <;> cases endMarker <;> simp

/-- C9: `must_be_a_number` accepts the empty string (the zero sentinel),
accepts any non-empty string the numeric parse accepts, and on any other
string fails with a message echoing the literal invalid string. -/
theorem must_be_a_number_spec :
    (must_be_a_number "" = Except.ok ())
    ∧ (∀ s : String, s ≠ "" → (parseInt s).isSome = true → must_be_a_number s = Except.ok ())
    ∧ (∀ s : String, s ≠ "" → parseInt s = none →
        must_be_a_number s = Except.error ("expected a number, found \x27" ++ s ++ "\x27")) := by
  refine ⟨rfl, ?_, ?_⟩
  · intro s hs hp
    unfold must_be_a_number
    rw [if_neg hs]
    cases hps : parseInt s with
    | some n => rfl
    | none =>
      rw [hps] at hp
      simp at hp
  · intro s hs hp
    unfold must_be_a_number
    rw [if_neg hs, hp]

/-- C10: the conversion from `NonNegativeNumber` to
`ValidatedNonNegativeNumber` performs no sign check — every `Number n`
converts to `n` (negative included), every string the parse maps to `n`
converts to `n` — and consequently `must_be_multiple_of 5` accepts `-10`
both as a number and as the string `"-10"`. -/
theorem nonneg_conversion_no_sign_check :
    (∀ n : Int, ValidatedNonNegativeNumber.tryFrom (NonNegativeNumber.Number n)
        = Except.ok ⟨n⟩)
    ∧ (∀ (s : String) (n : Int), parseInt s = some n →
        ValidatedNonNegativeNumber.tryFrom (NonNegativeNumber.String s) = Except.ok ⟨n⟩)
    ∧ ValidatedNonNegativeNumber.tryFrom (NonNegativeNumber.Number (-10)) = Except.ok ⟨-10⟩
    ∧ must_be_multiple_of 5 (NonNegativeNumber.Number (-10)) = Except.ok ()
    ∧ must_be_multiple_of 5 (NonNegativeNumber.String "-10") = Except.ok () := by
  refine ⟨fun n => rfl, ?_, rfl, rfl, rfl⟩
  intro s n hp
  simp [ValidatedNonNegativeNumber.tryFrom, NonNegativeNumber.value, hp]

end Travailleur
